import Mathlib

/-!
# Verification of the OpenClaw MCP bridge Gateway RPC client

A shallow embedding of `src/gateway-client.ts` (the `GatewayClient` class):
the canonical handshake signing payload, the base64url / hex encoders, the
device block of the outgoing `connect` request, and an event-step transition
system for the connection lifecycle (socket open / message / close / error
events, pending-request correlation table, timers, reconnection).

JavaScript promise semantics are modelled explicitly: each socket event
handler runs synchronously and may queue microtasks (the `.then` / `.catch`
continuations of the handshake promise), which are drained at the end of the
event step, matching the single-threaded event-loop ordering.
-/

namespace Bridge

/-- Model of JavaScript `Array.prototype.join(sep)`. -/
def joinWith (sep : String) : List String → String
  | [] => ""
  | [x] => x
  | x :: y :: xs => x ++ sep ++ joinWith sep (y :: xs)

/-- The scope list requested by the handshake
(`["operator.read", "operator.write", "operator.admin"]` in
`handleChallenge`). -/
def requestedScopes : List String :=
  ["operator.read", "operator.write", "operator.admin"]

/-- The canonical signing payload built in `GatewayClient.handleChallenge`:
`["v2", deviceId, "cli", "cli", "operator", scopes.join(","),
String(signedAt), token, nonce].join("|")`. -/
def signPayload (deviceId token nonce : String) (signedAt : Nat) : String :=
  joinWith "|"
    ["v2", deviceId, "cli", "cli", "operator",
     joinWith "," requestedScopes, Nat.repr signedAt, token, nonce]

example : signPayload "d" "t" "n" 7 =
    "v2|d|cli|cli|operator|operator.read,operator.write,operator.admin|7|t|n" := by
  rfl

/-! ## Encoders (`base64UrlEncode`, `rawPublicKeyFromPem`'s hex digest) -/

/-- The standard base64 alphabet, indexed 0–63. -/
def b64Alphabet : List Char :=
  "ABCDEFGHIJKLMNOPQRSTUVWXYZabcdefghijklmnopqrstuvwxyz0123456789+/".data

/-- Character for a 6-bit group. -/
def b64Char (n : Nat) : Char := b64Alphabet.getD n 'A'

/-- Standard base64 of a byte list, with `=` padding — model of
`buf.toString("base64")`. -/
def base64Encode : List UInt8 → List Char
  | [] => []
  | [b1] =>
      [b64Char (b1.toNat / 4), b64Char (b1.toNat % 4 * 16), '=', '=']
  | [b1, b2] =>
      [b64Char (b1.toNat / 4), b64Char (b1.toNat % 4 * 16 + b2.toNat / 16),
       b64Char (b2.toNat % 16 * 4), '=']
  | b1 :: b2 :: b3 :: rest =>
      b64Char (b1.toNat / 4) :: b64Char (b1.toNat % 4 * 16 + b2.toNat / 16) ::
      b64Char (b2.toNat % 16 * 4 + b3.toNat / 64) :: b64Char (b3.toNat % 64) ::
      base64Encode rest

/-- The per-character effect of `.replace(/\+/g, "-").replace(/\//g, "_")`. -/
def urlChar (c : Char) : Char :=
  if c = '+' then '-' else if c = '/' then '_' else c

/-- Model of `.replace(/=+$/, "")`: drop the trailing run of `=`. -/
def stripTrailingEq (cs : List Char) : List Char :=
  (cs.reverse.dropWhile (· = '=')).reverse

/-- `base64UrlEncode` from `gateway-client.ts`: standard base64, `+`→`-`,
`/`→`_`, trailing `=` stripped. -/
def base64UrlEncode (bs : List UInt8) : String :=
  ⟨stripTrailingEq ((base64Encode bs).map urlChar)⟩

/-- Lowercase hex digits. -/
def hexDigitChars : List Char := "0123456789abcdef".data

/-- Character for a 4-bit group. -/
def hexChar (n : Nat) : Char := hexDigitChars.getD n '0'

/-- Lowercase hex rendering of a byte list — model of `.digest("hex")`. -/
def hexEncode : List UInt8 → String
  | [] => ""
  | b :: rest => ⟨[hexChar (b.toNat / 16), hexChar (b.toNat % 16)]⟩ ++ hexEncode rest

/-- UTF-8 bytes of a string — model of `Buffer.from(s, "utf8")`. -/
def utf8Bytes (s : String) : List UInt8 := s.toUTF8.data.toList

example : base64UrlEncode [0x4d, 0x61, 0x6e] = "TWFu" := by rfl
example : base64UrlEncode [0x4d, 0x61] = "TWE" := by rfl
example : base64UrlEncode [0x4d] = "TQ" := by rfl
example : base64UrlEncode [0xfb, 0xff] = "-_8" := by rfl
example : hexEncode [0xde, 0xad, 0x01] = "dead01" := by rfl

/-! ## The device block of the outgoing `connect` request -/

/-- The `device` block sent in the `connect` request params
(`GatewayClient.handleChallenge`). -/
structure DeviceBlock where
  id : String
  publicKey : String
  signature : String
  signedAt : Nat
  nonce : String
deriving DecidableEq, Repr

/-- The device block as built by the client: `deviceId` and
`publicKeyBase64Url` are computed in the constructor from the raw public-key
bytes (`this.deviceId = sha256(rawPub).hex`,
`this.publicKeyBase64Url = base64UrlEncode(rawPub)`), and `handleChallenge`
fills `signature` (base64url of the detached signature over the UTF-8 bytes
of the signing payload), `signedAt`, and the echoed challenge `nonce`.
`sha256` (raw digest bytes) and `sign` (Ed25519 detached signature) are
abstract parameters of the model. -/
def mkDeviceBlock (sha256 sign : List UInt8 → List UInt8)
    (rawPub : List UInt8) (token nonce : String) (signedAt : Nat) : DeviceBlock :=
  let deviceId := hexEncode (sha256 rawPub)
  { id := deviceId
    publicKey := base64UrlEncode rawPub
    signature := base64UrlEncode (sign (utf8Bytes (signPayload deviceId token nonce signedAt)))
    signedAt := signedAt
    nonce := nonce }

/-! ## Connection lifecycle: state, events, and the event step -/

/-- What a pending entry's completion does: the handshake `connect` request's
callbacks settle `handleChallenge`'s promise (whose `.then`/`.catch`
continuations run as microtasks), while a `call()` entry's callbacks settle
the caller's promise directly. -/
inductive PKind where
  | handshake
  | userCall
deriving DecidableEq, Repr

/-- One entry of `this.pendingRequests` (the Correlation Table): completion
kind, the request's method (used in the timeout message), and the identity of
its deadline timer. -/
structure PendingEntry where
  kind : PKind
  method : String
  timerId : Nat
deriving DecidableEq, Repr

/-- State of a `GatewayClient` instance. `hasWs` is `this.ws !== null`;
`resolved` is the current `connect()` attempt's settlement flag (a closure
local in the source; one attempt is in flight at a time). `nextTimer` numbers
`setTimeout` handles so that clearing can be observed. -/
structure Client where
  hasWs : Bool
  connected : Bool
  authenticated : Bool
  pending : List (String × PendingEntry)
  nextId : Nat
  nextTimer : Nat
  reconnectTimer : Bool
  resolved : Bool
  requestTimeout : Nat
deriving DecidableEq, Repr

/-- A freshly constructed client (`nextId = 1`, empty table, all flags down). -/
def initClient (requestTimeout : Nat) : Client :=
  { hasWs := false, connected := false, authenticated := false, pending := []
    nextId := 1, nextTimer := 0, reconnectTimer := false, resolved := true
    requestTimeout := requestTimeout }

/-- `genId`: renders `` `bridge-${this.nextId++}` `` (the bump is done by the
caller of this pure function). -/
def genIdStr (n : Nat) : String := "bridge-" ++ Nat.repr n

/-- Parsed inbound wire message, as classified by the `message` handler. -/
inductive Msg where
  /-- `{type:"event", event:"connect.challenge", payload:{nonce, ts}}` -/
  | challenge (nonce : String) (ts : Nat)
  /-- `{type:"res", id, ok?, error?, payload?}` (with `id` present) -/
  | res (id : String) (ok : Option Bool) (err : Option String) (payload : String)
  /-- anything else (unknown event, res without id, …) -/
  | other
deriving DecidableEq, Repr

/-- Socket/timer events delivered to the client's handlers. `timerFire tid`
is the expiry of the deadline timer numbered `tid` (it can only fire while
its entry is still registered: `clearTimeout` cancels it). -/
inductive SockEvent where
  | openEv
  | message (m : Msg)
  | closeEv (code : Nat)
  | errorEv (emsg : String)
  | timerFire (tid : Nat)
deriving DecidableEq, Repr

/-- Observable effects of a step. -/
inductive Output where
  /-- an envelope `{type:"req", id, method, ...}` written to the socket -/
  | sent (id : String) (method : String)
  /-- `clearTimeout` on timer `tid` -/
  | cleared (tid : Nat)
  /-- a pending entry's `reject` callback invoked with this error message -/
  | rejectedP (id : String) (err : String)
  /-- a pending entry's `resolve` callback invoked with this payload -/
  | resolvedP (id : String) (payload : String)
  /-- the `connect()` promise resolved -/
  | connectResolved
  /-- the `connect()` promise rejected with this error message -/
  | connectRejected (err : String)
  /-- `scheduleReconnect` armed the reconnect timer -/
  | reconnectScheduled
deriving DecidableEq, Repr

/-- Microtasks queued by settling `handleChallenge`'s promise: its `.then`
(authentication success) and `.catch` (authentication failure). -/
inductive MTask where
  | authSuccess
  | authFailure (err : String)
deriving DecidableEq, Repr

/-- JS `Map.get`. -/
def mapGet (tbl : List (String × PendingEntry)) (k : String) : Option PendingEntry :=
  (tbl.find? (fun p => p.1 = k)).map (·.2)

/-- JS `Map.set`: replaces in place when the key is present, appends
otherwise. -/
def mapSet (tbl : List (String × PendingEntry)) (k : String) (v : PendingEntry) :
    List (String × PendingEntry) :=
  match tbl with
  | [] => [(k, v)]
  | (k', v') :: rest =>
      if k' = k then (k, v) :: rest else (k', v') :: mapSet rest k v

/-- JS `Map.delete`. -/
def mapDelete (tbl : List (String × PendingEntry)) (k : String) :
    List (String × PendingEntry) :=
  tbl.filter (fun p => ¬ p.1 = k)

/-- `send(msg)`: writes only when `readyState === OPEN` (identified with the
`connected` flag, which tracks the open/close events of the live socket);
otherwise the write is dropped. -/
def sendOut (s : Client) (id method : String) : List Output :=
  if s.connected then [.sent id method] else []

/-- The `reject` invocation on one pending entry: the output records the
callback call; a handshake entry additionally queues its `.catch` microtask. -/
def entryRejectTasks (e : PendingEntry) (err : String) : List MTask :=
  match e.kind with
  | .handshake => [.authFailure err]
  | .userCall => []

/-- `rejectAllPending(error)`: for each entry in table order, clear its timer,
invoke its `reject`, and remove it; the table is left empty. -/
def rejectAllPending (s : Client) (err : String) :
    Client × List Output × List MTask :=
  ({ s with pending := [] },
   s.pending.flatMap (fun p => [.cleared p.2.timerId, .rejectedP p.1 err]),
   s.pending.flatMap (fun p => entryRejectTasks p.2 err))

/-- `scheduleReconnect()`: arms the reconnect timer unless one is already
pending. -/
def scheduleReconnect (s : Client) : Client × List Output :=
  if s.reconnectTimer then (s, []) else
    ({ s with reconnectTimer := true }, [.reconnectScheduled])

/-- Synchronous part of `handleChallenge`: allocate the connect id, start the
10 s handshake timer, register the handshake entry, send the `connect`
request. (The signing itself is pure; see `signPayload`/`mkDeviceBlock`.) -/
def handleChallenge (s : Client) : Client × List Output × List MTask :=
  let connectId := genIdStr s.nextId
  let s₁ := { s with nextId := s.nextId + 1 }
  let tid := s₁.nextTimer
  let s₂ := { s₁ with
    nextTimer := s₁.nextTimer + 1
    pending := mapSet s₁.pending connectId ⟨.handshake, "connect", tid⟩ }
  (s₂, sendOut s₂ connectId "connect", [])

/-- The `res` branch of the message handler: look up the id; if absent,
silently discard; otherwise remove the entry, clear its timer, and invoke
its `reject` (on `ok === false` or a present `error`) or `resolve`. -/
def handleRes (s : Client) (id : String) (ok : Option Bool) (err : Option String)
    (payload : String) : Client × List Output × List MTask :=
  match mapGet s.pending id with
  | none => (s, [], [])
  | some e =>
      let s₁ := { s with pending := mapDelete s.pending id }
      if ok = some false ∨ err.isSome then
        let emsg := "RPC error: " ++ (err.getD payload)
        (s₁, [.cleared e.timerId, .rejectedP id emsg], entryRejectTasks e emsg)
      else
        match e.kind with
        | .handshake => (s₁, [.cleared e.timerId, .resolvedP id payload], [.authSuccess])
        | .userCall => (s₁, [.cleared e.timerId, .resolvedP id payload], [])

/-- The `message` event handler after `parseMessage`. -/
def handleMessage (s : Client) (m : Msg) : Client × List Output × List MTask :=
  match m with
  | .challenge _ _ => handleChallenge s
  | .res id ok err payload => handleRes s id ok err payload
  | .other => (s, [], [])

/-- The `close` event handler: drop both flags, reject every pending entry
with `"WebSocket disconnected"`, then either schedule a reconnect (if the
attempt's promise had already settled) or settle it with `"WS closed: code"`. -/
def handleClose (s : Client) (code : Nat) : Client × List Output × List MTask :=
  if s.resolved then
    ((scheduleReconnect (rejectAllPending
        { s with connected := false, authenticated := false } "WebSocket disconnected").1).1,
     (rejectAllPending
        { s with connected := false, authenticated := false } "WebSocket disconnected").2.1 ++
       (scheduleReconnect (rejectAllPending
        { s with connected := false, authenticated := false } "WebSocket disconnected").1).2,
     (rejectAllPending
        { s with connected := false, authenticated := false } "WebSocket disconnected").2.2)
  else
    ({ (rejectAllPending
        { s with connected := false, authenticated := false } "WebSocket disconnected").1 with
       resolved := true },
     (rejectAllPending
        { s with connected := false, authenticated := false } "WebSocket disconnected").2.1 ++
       [.connectRejected ("WS closed: " ++ Nat.repr code)],
     (rejectAllPending
        { s with connected := false, authenticated := false } "WebSocket disconnected").2.2)

/-- The `error` event handler: settles the attempt's promise if it had not
settled yet; touches nothing else. -/
def handleError (s : Client) (emsg : String) : Client × List Output × List MTask :=
  if s.resolved then (s, [], []) else
    ({ s with resolved := true }, [.connectRejected emsg], [])

/-- Expiry of the deadline timer `tid`: the owning entry (if still
registered) deletes itself and invokes its `reject` with its timeout
message. A cleared or already-consumed timer has no owning entry and the
event is a no-op. -/
def handleTimer (s : Client) (tid : Nat) : Client × List Output × List MTask :=
  match s.pending.find? (fun p => p.2.timerId = tid) with
  | none => (s, [], [])
  | some (id, e) =>
      let s₁ := { s with pending := mapDelete s.pending id }
      match e.kind with
      | .handshake => (s₁, [.rejectedP id "Connect handshake timeout"],
                       [.authFailure "Connect handshake timeout"])
      | .userCall =>
          let emsg := "Request timeout: " ++ e.method ++ " (" ++
            Nat.repr s.requestTimeout ++ "ms)"
          (s₁, [.rejectedP id emsg], [])

/-- One microtask: `handleChallenge(...).then(...)` sets `authenticated` and
resolves the attempt if unsettled; `.catch(...)` rejects it if unsettled. -/
def runTask (s : Client) (t : MTask) : Client × List Output :=
  match t with
  | .authSuccess =>
      let s₁ := { s with authenticated := true }
      if s₁.resolved then (s₁, []) else
        ({ s₁ with resolved := true }, [.connectResolved])
  | .authFailure e =>
      if s.resolved then (s, []) else
        ({ s with resolved := true }, [.connectRejected e])

/-- Drain the microtask queue in FIFO order. -/
def drain (s : Client) : List MTask → Client × List Output
  | [] => (s, [])
  | t :: ts =>
      let r₁ := runTask s t
      let r₂ := drain r₁.1 ts
      (r₂.1, r₁.2 ++ r₂.2)

/-- The synchronous handler dispatched on one socket/timer event. -/
def handler (s : Client) : SockEvent → Client × List Output × List MTask
  | .openEv => ({ s with connected := true }, [], [])
  | .message m => handleMessage s m
  | .closeEv code => handleClose s code
  | .errorEv emsg => handleError s emsg
  | .timerFire tid => handleTimer s tid

/-- One event step: run the synchronous handler, then drain the microtasks it
queued. -/
def step (s : Client) (ev : SockEvent) : Client × List Output :=
  let h := handler s ev
  let d := drain h.1 h.2.2
  (d.1, h.2.1 ++ d.2)

/-- Run a sequence of events, collecting outputs. -/
def run (s : Client) : List SockEvent → Client × List Output
  | [] => (s, [])
  | ev :: evs =>
      let r₁ := step s ev
      let r₂ := run r₁.1 evs
      (r₂.1, r₁.2 ++ r₂.2)

/-- The synchronous prefix of `connect()`: a fresh socket is created
(`this.ws = new WebSocket(url)`), `authenticated` is cleared, and the
attempt's local `resolved` flag starts false. -/
def connectStart (s : Client) : Client :=
  { s with hasWs := true, authenticated := false, resolved := false }

/-- `call(method)`: throws `"Not connected to Gateway"` unless
`this.ws && this.connected && this.authenticated`; otherwise allocates a
fresh id, arms the per-call timer, registers the entry, sends the request. -/
def call (s : Client) (method : String) : Except String (Client × List Output) :=
  if !s.hasWs || !s.connected || !s.authenticated then
    .error "Not connected to Gateway"
  else
    let id := genIdStr s.nextId
    let s₁ := { s with nextId := s.nextId + 1 }
    let tid := s₁.nextTimer
    let s₂ := { s₁ with
      nextTimer := s₁.nextTimer + 1
      pending := mapSet s₁.pending id ⟨.userCall, method, tid⟩ }
    .ok (s₂, sendOut s₂ id method)

/-- `disconnect()`: cancel the reconnect timer, close and drop the socket,
lower both flags, reject everything pending with `"Client disconnected"`. -/
def disconnect (s : Client) : Client × List Output × List MTask :=
  rejectAllPending
    { s with reconnectTimer := false, hasWs := false,
             connected := false, authenticated := false }
    "Client disconnected"

/-- Value of a decimal character string (left inverse of `Nat.repr`). -/
def decVal (cs : List Char) : Nat :=
  cs.foldl (fun a c => 10 * a + (c.toNat - 48)) 0

/-- Output classification: the settlement outputs of the `connect()` promise. -/
def isSettle : Output → Bool
  | .connectResolved => true
  | .connectRejected _ => true
  | _ => false

/-- Number of `connect()` settlements among some outputs. -/
def settleCount : List Output → Nat
  | [] => 0
  | o :: os => (if isSettle o then 1 else 0) + settleCount os

/-- Well-formed socket behaviour: message events are only delivered while the
socket is open (between the `open` and `close` events). -/
def Wf (s : Client) : SockEvent → Prop
  | .message _ => s.connected = true
  | _ => True

/-- A whole event trace is well-formed from a given state. -/
def WfRun : Client → List SockEvent → Prop
  | _, [] => True
  | s, ev :: evs => Wf s ev ∧ WfRun (step s ev).1 evs

/-- A concrete ready client with two outstanding calls (used to exercise the
close-rejection behaviour on a specific input). -/
def c3s : Client :=
  { hasWs := true
    connected := true
    authenticated := true
    pending := [("bridge-1", ⟨.userCall, "node.list", 0⟩),
                ("bridge-2", ⟨.userCall, "health", 1⟩)]
    nextId := 3
    nextTimer := 2
    reconnectTimer := false
    resolved := true
    requestTimeout := 60000 }

/-- A concrete ready client with one outstanding call keyed `"k"`. -/
def c6s : Client :=
  { hasWs := true
    connected := true
    authenticated := true
    pending := [("k", ⟨.userCall, "node.list", 3⟩)]
    nextId := 4
    nextTimer := 4
    reconnectTimer := false
    resolved := true
    requestTimeout := 60000 }

/-- A concrete ready client with an empty table. -/
def c8s : Client :=
  { hasWs := true
    connected := true
    authenticated := true
    pending := []
    nextId := 5
    nextTimer := 9
    reconnectTimer := false
    resolved := true
    requestTimeout := 1 }

/-- A successful-handshake event trace: open, challenge, matching `res`. -/
def c7trace : List SockEvent :=
  [.openEv, .message (.challenge "nonce1" 17),
   .message (.res "bridge-1" none none "ok")]

/-! ## Encoder lemmas -/

/-- `getD` stays in the list when the default is in the list. -/
theorem getD_mem_of_default_mem {l : List Char} {d : Char} (hd : d ∈ l) (n : Nat) :
    l.getD n d ∈ l := by
  rcases h : l[n]? with _ | c
  · simpa [List.getD, h] using hd
  · have := List.getElem?_mem h
    simpa [List.getD, h] using this

theorem hexChar_mem (n : Nat) : hexChar n ∈ hexDigitChars :=
  getD_mem_of_default_mem (by decide) n

theorem b64Char_mem (n : Nat) : b64Char n ∈ b64Alphabet :=
  getD_mem_of_default_mem (by decide) n

theorem string_data_append (a b : String) : (a ++ b).data = a.data ++ b.data := rfl

theorem string_data_inj {a b : String} (h : a.data = b.data) : a = b := by
  cases a; cases b; exact congrArg String.mk h

theorem hexEncode_chars : ∀ bs : List UInt8, ∀ c ∈ (hexEncode bs).data, c ∈ hexDigitChars := by
  intro bs
  induction bs with
  | nil => intro c hc; simp [hexEncode] at hc
  | cons b rest ih =>
      intro c hc
      simp only [hexEncode, string_data_append, List.cons_append, List.nil_append,
        List.mem_cons] at hc
      rcases hc with rfl | rfl | hc
      · exact hexChar_mem _
      · exact hexChar_mem _
      · exact ih c hc

/-- Shape of standard base64 output: a body of alphabet characters followed
by a run of `=` padding. -/
theorem base64Encode_shape : ∀ bs : List UInt8,
    ∃ body k, base64Encode bs = body ++ List.replicate k '=' ∧
      ∀ c ∈ body, c ∈ b64Alphabet
  | [] => ⟨[], 0, rfl, by simp⟩
  | [b1] =>
      ⟨[b64Char (b1.toNat / 4), b64Char (b1.toNat % 4 * 16)], 2, rfl, by
        intro c hc
        simp only [List.mem_cons, List.not_mem_nil, or_false] at hc
        rcases hc with rfl | rfl
        · exact b64Char_mem _
        · exact b64Char_mem _⟩
  | [b1, b2] =>
      ⟨[b64Char (b1.toNat / 4), b64Char (b1.toNat % 4 * 16 + b2.toNat / 16),
        b64Char (b2.toNat % 16 * 4)], 1, rfl, by
        intro c hc
        simp only [List.mem_cons, List.not_mem_nil, or_false] at hc
        rcases hc with rfl | rfl | rfl
        · exact b64Char_mem _
        · exact b64Char_mem _
        · exact b64Char_mem _⟩
  | b1 :: b2 :: b3 :: rest => by
      obtain ⟨body, k, hEq, hMem⟩ := base64Encode_shape rest
      refine ⟨b64Char (b1.toNat / 4) :: b64Char (b1.toNat % 4 * 16 + b2.toNat / 16) ::
        b64Char (b2.toNat % 16 * 4 + b3.toNat / 64) :: b64Char (b3.toNat % 64) :: body, k, ?_, ?_⟩
      · simp [base64Encode, hEq]
      · intro c hc
        simp only [List.mem_cons] at hc
        rcases hc with rfl | rfl | rfl | rfl | hc
        · exact b64Char_mem _
        · exact b64Char_mem _
        · exact b64Char_mem _
        · exact b64Char_mem _
        · exact hMem c hc

theorem urlChar_ne_eq_all : ∀ c ∈ b64Alphabet, urlChar c ≠ '=' := by decide

theorem urlChar_ne_eq {c : Char} (hc : c ∈ b64Alphabet) : urlChar c ≠ '=' :=
  urlChar_ne_eq_all c hc

theorem dropWhile_replicate_append (p : Char → Bool) (k : Nat) (a : Char) (l : List Char)
    (h : p a = true) : (List.replicate k a ++ l).dropWhile p = l.dropWhile p := by
  induction k with
  | zero => rfl
  | succ k ih => simp [List.replicate_succ, List.dropWhile, h, ih]

theorem dropWhile_eq_self_of_head (p : Char → Bool) (l : List Char)
    (h : ∀ c ∈ l, p c = false) : l.dropWhile p = l := by
  cases l with
  | nil => rfl
  | cons c cs => simp [List.dropWhile, h c (by simp)]

/-- Every character of `base64UrlEncode` is the url-mapped image of a base64
alphabet character; in particular the result contains no `=` padding. -/
theorem base64UrlEncode_chars (bs : List UInt8) :
    ∀ c ∈ (base64UrlEncode bs).data, ∃ c₀ ∈ b64Alphabet, c = urlChar c₀ := by
  obtain ⟨body, k, hEq, hMem⟩ := base64Encode_shape bs
  intro c hc
  have hmap : (base64Encode bs).map urlChar =
      body.map urlChar ++ List.replicate k '=' := by
    simp [hEq, List.map_append, List.map_replicate, urlChar]
  have hbody : ∀ c ∈ (body.map urlChar).reverse, (c = '=' : Bool) = false := by
    intro c hcm
    rw [List.mem_reverse] at hcm
    obtain ⟨c₀, hc₀, rfl⟩ := List.mem_map.mp hcm
    simpa using urlChar_ne_eq (hMem c₀ hc₀)
  have hstrip : stripTrailingEq ((base64Encode bs).map urlChar) = body.map urlChar := by
    rw [hmap]
    unfold stripTrailingEq
    rw [List.reverse_append, List.reverse_replicate,
      dropWhile_replicate_append _ _ _ _ (by simp),
      dropWhile_eq_self_of_head _ _ hbody, List.reverse_reverse]
  rw [base64UrlEncode] at hc
  simp only [hstrip] at hc
  obtain ⟨c₀, hc₀, rfl⟩ := List.mem_map.mp hc
  exact ⟨c₀, hMem c₀ hc₀, rfl⟩

theorem base64UrlEncode_no_pad (bs : List UInt8) :
    ∀ c ∈ (base64UrlEncode bs).data, c ≠ '=' := by
  intro c hc
  obtain ⟨c₀, hc₀, rfl⟩ := base64UrlEncode_chars bs c hc
  exact urlChar_ne_eq hc₀

/-! ## C1: the canonical signing payload -/

/-- C1: the canonical signing payload is exactly the nine fields `"v2"`, the
device fingerprint, the client id `"cli"`, the client mode `"cli"`, the role
`"operator"`, the comma-joined scopes, the decimal signing timestamp, the
token, and the nonce, joined with `"|"` in that order; and repeated
invocations on the same inputs produce a byte-identical string. -/
theorem signPayload_canonical (d t n : String) (a : Nat) :
    signPayload d t n a =
      "v2" ++ "|" ++ d ++ "|" ++ "cli" ++ "|" ++ "cli" ++ "|" ++ "operator" ++ "|" ++
      "operator.read,operator.write,operator.admin" ++ "|" ++
      Nat.repr a ++ "|" ++ t ++ "|" ++ n ∧
    (signPayload d t n a).data = (signPayload d t n a).data := by
  refine ⟨?_, rfl⟩
  simp only [signPayload]
  rw [show joinWith "," requestedScopes =
    "operator.read,operator.write,operator.admin" from rfl]
  simp only [joinWith]
  apply string_data_inj
  simp only [string_data_append, List.append_assoc]

/-! ## C5: the device block of the `connect` request -/

/-- C5: for every keypair and challenge, the outgoing device block carries the
lowercase-hex digest of the raw public key as `id`, the unpadded url-safe
base64 of the raw public key as `publicKey`, the unpadded url-safe base64 of
the detached signature over the exact signing-payload bytes as `signature`,
and the echoed challenge nonce. -/
theorem deviceBlock_contract (sha256 sign : List UInt8 → List UInt8)
    (rawPub : List UInt8) (token nonce : String) (signedAt : Nat) :
    (mkDeviceBlock sha256 sign rawPub token nonce signedAt).id =
        hexEncode (sha256 rawPub) ∧
    (∀ c ∈ (mkDeviceBlock sha256 sign rawPub token nonce signedAt).id.data,
        c ∈ hexDigitChars) ∧
    (mkDeviceBlock sha256 sign rawPub token nonce signedAt).publicKey =
        base64UrlEncode rawPub ∧
    (∀ c ∈ (mkDeviceBlock sha256 sign rawPub token nonce signedAt).publicKey.data,
        c ≠ '=') ∧
    (mkDeviceBlock sha256 sign rawPub token nonce signedAt).signature =
        base64UrlEncode (sign (utf8Bytes
          (signPayload (hexEncode (sha256 rawPub)) token nonce signedAt))) ∧
    (∀ c ∈ (mkDeviceBlock sha256 sign rawPub token nonce signedAt).signature.data,
        c ≠ '=') ∧
    (mkDeviceBlock sha256 sign rawPub token nonce signedAt).nonce = nonce ∧
    (mkDeviceBlock sha256 sign rawPub token nonce signedAt).signedAt = signedAt :=
  ⟨rfl, hexEncode_chars _, rfl, base64UrlEncode_no_pad _, rfl,
   base64UrlEncode_no_pad _, rfl, rfl⟩

/-! ## Injectivity of decimal id rendering -/

theorem toDigitsCore_shift : ∀ (fuel n : Nat) (ds : List Char),
    Nat.toDigitsCore 10 fuel n ds = Nat.toDigitsCore 10 fuel n [] ++ ds := by
  intro fuel
  induction fuel with
  | zero => intro n ds; simp [Nat.toDigitsCore]
  | succ fuel ih =>
      intro n ds
      simp only [Nat.toDigitsCore]
      by_cases h : n / 10 = 0
      · simp [h]
      · simp only [if_neg h]
        rw [ih (n / 10) [Nat.digitChar (n % 10)],
          ih (n / 10) (Nat.digitChar (n % 10) :: ds), List.append_assoc]
        rfl

theorem digitChar_val (m : Nat) (hm : m < 10) : (Nat.digitChar m).toNat - 48 = m := by
  interval_cases m <;> rfl

theorem foldl_dec_append (a : Nat) (xs : List Char) (c : Char) :
    List.foldl (fun a c => 10 * a + (c.toNat - 48)) a (xs ++ [c]) =
      10 * List.foldl (fun a c => 10 * a + (c.toNat - 48)) a xs + (c.toNat - 48) := by
  rw [List.foldl_append]
  rfl

theorem toDigitsCore_val : ∀ (fuel n : Nat), n < 10 ^ fuel →
    decVal (Nat.toDigitsCore 10 fuel n []) = n := by
  intro fuel
  induction fuel with
  | zero =>
      intro n hn
      interval_cases n
      rfl
  | succ fuel ih =>
      intro n hn
      simp only [Nat.toDigitsCore]
      by_cases h : n / 10 = 0
      · have hn10 : n < 10 := by omega
        simp only [if_pos h, decVal, List.foldl]
        rw [digitChar_val (n % 10) (Nat.mod_lt _ (by norm_num))]
        simp [Nat.mod_eq_of_lt hn10]
      · simp only [if_neg h]
        rw [toDigitsCore_shift]
        have hdiv : n / 10 < 10 ^ fuel := by
          rw [Nat.div_lt_iff_lt_mul (by norm_num)]
          calc n < 10 ^ (fuel + 1) := hn
            _ = 10 ^ fuel * 10 := by ring
        unfold decVal
        rw [foldl_dec_append]
        have := ih (n / 10) hdiv
        unfold decVal at this
        rw [this, digitChar_val (n % 10) (Nat.mod_lt _ (by norm_num))]
        omega

theorem decVal_repr (n : Nat) : decVal (Nat.repr n).data = n := by
  have hlt : n < 10 ^ (n + 1) :=
    lt_of_lt_of_le (Nat.lt_two_pow n) (by
      calc (2 : Nat) ^ n ≤ 10 ^ n := Nat.pow_le_pow_left (by norm_num) n
        _ ≤ 10 ^ (n + 1) := Nat.pow_le_pow_right (by norm_num) (Nat.le_succ n))
  have : (Nat.repr n).data = Nat.toDigitsCore 10 (n + 1) n [] := rfl
  rw [this]
  exact toDigitsCore_val (n + 1) n hlt

theorem repr_inj_nat {m n : Nat} (h : Nat.repr m = Nat.repr n) : m = n := by
  have := congrArg (fun s => decVal s.data) h
  simpa [decVal_repr] using this

theorem genIdStr_inj {m n : Nat} (h : genIdStr m = genIdStr n) : m = n := by
  apply repr_inj_nat
  apply string_data_inj
  have hd := congrArg String.data h
  simp only [genIdStr, string_data_append] at hd
  exact List.append_cancel_left hd

/-! ## Correlation-table lemmas -/

theorem mapGet_mapSet_self (tbl : List (String × PendingEntry)) (k : String)
    (v : PendingEntry) : mapGet (mapSet tbl k v) k = some v := by
  induction tbl with
  | nil => simp [mapSet, mapGet, List.find?]
  | cons p rest ih =>
      by_cases h : p.1 = k
      · simp [mapSet, mapGet, h, List.find?]
      · simpa [mapSet, mapGet, h, List.find?] using ih

theorem mapGet_mapDelete_self (tbl : List (String × PendingEntry)) (k : String) :
    mapGet (mapDelete tbl k) k = none := by
  induction tbl with
  | nil => rfl
  | cons p rest ih =>
      by_cases h : p.1 = k
      · simp [mapDelete, mapGet, h] at ih ⊢
      · simp [mapDelete, mapGet, List.find?, h] at ih ⊢

theorem mapSet_keys (tbl : List (String × PendingEntry)) (k : String) (v : PendingEntry) :
    (mapSet tbl k v).map Prod.fst =
      if (mapGet tbl k).isSome then tbl.map Prod.fst else tbl.map Prod.fst ++ [k] := by
  induction tbl with
  | nil => simp [mapSet, mapGet, List.find?]
  | cons p rest ih =>
      by_cases h : p.1 = k
      · simp [mapSet, mapGet, List.find?, h]
      · simp only [mapSet, if_neg h, List.map_cons, ih]
        simp only [mapGet, List.find?, show (p.1 = k : Bool) = false by simpa using h]
        by_cases h2 : (mapGet rest k).isSome <;> simp [mapGet] at h2 ⊢ <;> simp [h2]

theorem mapSet_len (tbl : List (String × PendingEntry)) (k : String) (v : PendingEntry) :
    (mapSet tbl k v).length =
      if (mapGet tbl k).isSome then tbl.length else tbl.length + 1 := by
  have := congrArg List.length (mapSet_keys tbl k v)
  simp only [List.length_map] at this
  rw [this]
  by_cases h : (mapGet tbl k).isSome <;> simp [h]

theorem nodup_mapSet (tbl : List (String × PendingEntry)) (k : String) (v : PendingEntry)
    (h : (tbl.map Prod.fst).Nodup) : ((mapSet tbl k v).map Prod.fst).Nodup := by
  rw [mapSet_keys]
  by_cases hk : (mapGet tbl k).isSome
  · simpa [hk] using h
  · simp only [hk, if_false]
    have hkn : k ∉ tbl.map Prod.fst := by
      intro hmem
      apply hk
      obtain ⟨p, hp, hpk⟩ := List.mem_map.mp hmem
      have : tbl.find? (fun q => q.1 = k) ≠ none := by
        intro hnone
        have := List.find?_eq_none.mp hnone p hp
        simp [hpk] at this
      simp only [mapGet, Option.isSome_map]
      cases hf : tbl.find? (fun q => q.1 = k)
      · exact absurd hf this
      · simp [Option.isSome]
    simp [List.nodup_append, h, hkn]

theorem nodup_mapDelete (tbl : List (String × PendingEntry)) (k : String)
    (h : (tbl.map Prod.fst).Nodup) : ((mapDelete tbl k).map Prod.fst).Nodup := by
  unfold mapDelete
  exact h.sublist ((List.filter_sublist tbl).map Prod.fst)

/-! ## Microtask-drain lemmas -/

/-- A microtask only touches the `authenticated` and `resolved` flags. -/
theorem runTask_pending (s : Client) (t : MTask) :
    (runTask s t).1.pending = s.pending := by
  cases t <;> by_cases h : s.resolved <;> simp [runTask, h]

theorem runTask_nextId (s : Client) (t : MTask) :
    (runTask s t).1.nextId = s.nextId := by
  cases t <;> by_cases h : s.resolved <;> simp [runTask, h]

theorem runTask_nextTimer (s : Client) (t : MTask) :
    (runTask s t).1.nextTimer = s.nextTimer := by
  cases t <;> by_cases h : s.resolved <;> simp [runTask, h]

theorem runTask_connected (s : Client) (t : MTask) :
    (runTask s t).1.connected = s.connected := by
  cases t <;> by_cases h : s.resolved <;> simp [runTask, h]

theorem runTask_hasWs (s : Client) (t : MTask) :
    (runTask s t).1.hasWs = s.hasWs := by
  cases t <;> by_cases h : s.resolved <;> simp [runTask, h]

theorem runTask_reconnectTimer (s : Client) (t : MTask) :
    (runTask s t).1.reconnectTimer = s.reconnectTimer := by
  cases t <;> by_cases h : s.resolved <;> simp [runTask, h]

theorem drain_pending : ∀ (ts : List MTask) (s : Client),
    (drain s ts).1.pending = s.pending := by
  intro ts
  induction ts with
  | nil => intro s; rfl
  | cons t ts ih =>
      intro s
      show (drain (runTask s t).1 ts).1.pending = s.pending
      rw [ih, runTask_pending]

theorem drain_nextId : ∀ (ts : List MTask) (s : Client),
    (drain s ts).1.nextId = s.nextId := by
  intro ts
  induction ts with
  | nil => intro s; rfl
  | cons t ts ih =>
      intro s
      show (drain (runTask s t).1 ts).1.nextId = s.nextId
      rw [ih, runTask_nextId]

theorem drain_nextTimer : ∀ (ts : List MTask) (s : Client),
    (drain s ts).1.nextTimer = s.nextTimer := by
  intro ts
  induction ts with
  | nil => intro s; rfl
  | cons t ts ih =>
      intro s
      show (drain (runTask s t).1 ts).1.nextTimer = s.nextTimer
      rw [ih, runTask_nextTimer]

theorem drain_connected : ∀ (ts : List MTask) (s : Client),
    (drain s ts).1.connected = s.connected := by
  intro ts
  induction ts with
  | nil => intro s; rfl
  | cons t ts ih =>
      intro s
      show (drain (runTask s t).1 ts).1.connected = s.connected
      rw [ih, runTask_connected]

theorem drain_hasWs : ∀ (ts : List MTask) (s : Client),
    (drain s ts).1.hasWs = s.hasWs := by
  intro ts
  induction ts with
  | nil => intro s; rfl
  | cons t ts ih =>
      intro s
      show (drain (runTask s t).1 ts).1.hasWs = s.hasWs
      rw [ih, runTask_hasWs]

theorem drain_reconnectTimer : ∀ (ts : List MTask) (s : Client),
    (drain s ts).1.reconnectTimer = s.reconnectTimer := by
  intro ts
  induction ts with
  | nil => intro s; rfl
  | cons t ts ih =>
      intro s
      show (drain (runTask s t).1 ts).1.reconnectTimer = s.reconnectTimer
      rw [ih, runTask_reconnectTimer]

theorem settleCount_append (a b : List Output) :
    settleCount (a ++ b) = settleCount a + settleCount b := by
  induction a with
  | nil => simp [settleCount]
  | cons o os ih => simp [settleCount, ih]; omega

theorem runTask_resolved_mono (s : Client) (t : MTask) (h : s.resolved = true) :
    (runTask s t).1.resolved = true := by
  cases t <;> simp [runTask, h]

theorem runTask_settled (s : Client) (t : MTask) (h : s.resolved = true) :
    (runTask s t).2 = [] := by
  cases t <;> simp [runTask, h]

theorem runTask_settle_le (s : Client) (t : MTask) :
    settleCount (runTask s t).2 ≤ 1 := by
  cases t <;> by_cases h : s.resolved <;>
    simp [runTask, h, settleCount, isSettle]

theorem runTask_unresolved_of_no_settle (s : Client) (t : MTask)
    (h : (runTask s t).1.resolved = false) : (runTask s t).2 = [] ∧ s.resolved = false := by
  cases t <;> by_cases hr : s.resolved <;> simp_all [runTask]

theorem drain_resolved_mono : ∀ (ts : List MTask) (s : Client),
    s.resolved = true → (drain s ts).1.resolved = true := by
  intro ts
  induction ts with
  | nil => intro s h; exact h
  | cons t ts ih =>
      intro s h
      exact ih _ (runTask_resolved_mono s t h)

theorem drain_settled : ∀ (ts : List MTask) (s : Client),
    s.resolved = true → (drain s ts).2 = [] := by
  intro ts
  induction ts with
  | nil => intro s h; rfl
  | cons t ts ih =>
      intro s h
      show (runTask s t).2 ++ (drain (runTask s t).1 ts).2 = []
      rw [runTask_settled s t h, ih _ (runTask_resolved_mono s t h)]
      rfl

theorem drain_settle_le : ∀ (ts : List MTask) (s : Client),
    settleCount (drain s ts).2 ≤ 1 ∧
    ((drain s ts).1.resolved = false → settleCount (drain s ts).2 = 0) := by
  intro ts
  induction ts with
  | nil => intro s; exact ⟨by simp [drain, settleCount], fun _ => rfl⟩
  | cons t ts ih =>
      intro s
      have hsplit : (drain s (t :: ts)).2 = (runTask s t).2 ++ (drain (runTask s t).1 ts).2 :=
        rfl
      constructor
      · rw [hsplit, settleCount_append]
        by_cases hr : (runTask s t).1.resolved
        · by_cases hs : s.resolved
          · rw [runTask_settled s t hs, drain_settled ts _ hr]
            simp [settleCount]
          · rw [drain_settled ts _ hr]
            have := runTask_settle_le s t
            simp only [settleCount]
            omega
        · obtain ⟨h2, _⟩ := runTask_unresolved_of_no_settle s t (by simpa using hr)
          rw [h2]
          have := (ih (runTask s t).1).1
          simpa [settleCount] using this
      · intro hres
        have hres' : (drain (runTask s t).1 ts).1.resolved = false := hres
        rw [hsplit, settleCount_append]
        by_cases hr : (runTask s t).1.resolved
        · exact absurd (drain_resolved_mono ts _ (by simpa using hr)) (by simp [hres'])
        · obtain ⟨h2, _⟩ := runTask_unresolved_of_no_settle s t (by simpa using hr)
          rw [h2, (ih (runTask s t).1).2 hres']
          rfl

/-! ## Handler-shape and step lemmas -/

theorem step_fst (s : Client) (ev : SockEvent) :
    (step s ev).1 = (drain (handler s ev).1 (handler s ev).2.2).1 := rfl

theorem step_snd (s : Client) (ev : SockEvent) :
    (step s ev).2 = (handler s ev).2.1 ++ (drain (handler s ev).1 (handler s ev).2.2).2 := rfl

theorem settleCount_rejectAll (l : List (String × PendingEntry)) (e : String) :
    settleCount (l.flatMap fun p => [Output.cleared p.2.timerId, Output.rejectedP p.1 e]) = 0 := by
  induction l with
  | nil => rfl
  | cons p rest ih => simpa [settleCount, isSettle] using ih

theorem settleCount_sendOut (s : Client) (id m : String) :
    settleCount (sendOut s id m) = 0 := by
  by_cases h : s.connected <;> simp [sendOut, h, settleCount, isSettle]


theorem settleCount_rejectAllPending (s : Client) (e : String) :
    settleCount (rejectAllPending s e).2.1 = 0 :=
  settleCount_rejectAll s.pending e

theorem settleCount_scheduleReconnect (s : Client) :
    settleCount (scheduleReconnect s).2 = 0 := by
  unfold scheduleReconnect
  split <;> simp [settleCount, isSettle]

theorem handleChallenge_state (s : Client) :
    (handleChallenge s).1 =
      { s with nextId := s.nextId + 1, nextTimer := s.nextTimer + 1,
               pending := mapSet s.pending (genIdStr s.nextId)
                 ⟨.handshake, "connect", s.nextTimer⟩ } := rfl

theorem handleChallenge_settle (s : Client) :
    settleCount (handleChallenge s).2.1 = 0 :=
  settleCount_sendOut (handleChallenge s).1 (genIdStr s.nextId) "connect"

theorem handleChallenge_tasks (s : Client) : (handleChallenge s).2.2 = [] := rfl

theorem handleRes_state (s : Client) (id : String) (ok : Option Bool) (err : Option String)
    (payload : String) :
    ∃ p, (handleRes s id ok err payload).1 = { s with pending := p } := by
  unfold handleRes
  split
  · exact ⟨s.pending, rfl⟩
  · split
    · exact ⟨_, rfl⟩
    · split <;> exact ⟨_, rfl⟩

theorem handleRes_settle (s : Client) (id : String) (ok : Option Bool) (err : Option String)
    (payload : String) : settleCount (handleRes s id ok err payload).2.1 = 0 := by
  unfold handleRes
  split
  · rfl
  · split
    · simp [settleCount, isSettle]
    · split <;> simp [settleCount, isSettle]

theorem handleTimer_state (s : Client) (tid : Nat) :
    ∃ p, (handleTimer s tid).1 = { s with pending := p } := by
  unfold handleTimer
  split
  · exact ⟨s.pending, rfl⟩
  · split <;> exact ⟨_, rfl⟩

theorem handleTimer_settle (s : Client) (tid : Nat) :
    settleCount (handleTimer s tid).2.1 = 0 := by
  unfold handleTimer
  split
  · rfl
  · split <;> simp [settleCount, isSettle]

theorem handleError_state (s : Client) (emsg : String) :
    (handleError s emsg).1 = s ∨
      (handleError s emsg).1 = { s with resolved := true } := by
  unfold handleError
  split
  · exact .inl rfl
  · exact .inr rfl

theorem handleError_settle_resolved (s : Client) (emsg : String) (h : s.resolved = true) :
    handleError s emsg = (s, [], []) := by
  unfold handleError
  rw [if_pos h]

theorem handleError_settle_unresolved (s : Client) (emsg : String) (h : s.resolved = false) :
    handleError s emsg =
      ({ s with resolved := true }, [.connectRejected emsg], []) := by
  unfold handleError
  rw [if_neg (by simp [h])]

theorem rejectAllPending_fst (s : Client) (e : String) :
    (rejectAllPending s e).1 = { s with pending := [] } := rfl

theorem handleClose_resolved (s : Client) (code : Nat) :
    (handleClose s code).1.resolved = true := by
  unfold handleClose
  split
  · rename_i h
    unfold scheduleReconnect
    split
    · exact h
    · exact h
  · rfl

theorem handleClose_settle (s : Client) (code : Nat) :
    settleCount (handleClose s code).2.1 = if s.resolved then 0 else 1 := by
  unfold handleClose
  by_cases h : s.resolved = true
  · rw [if_pos h, if_pos h, settleCount_append, settleCount_rejectAllPending,
      settleCount_scheduleReconnect]
  · rw [if_neg h, if_neg h, settleCount_append, settleCount_rejectAllPending]
    simp [settleCount, isSettle]

theorem handler_resolved_mono (s : Client) (ev : SockEvent) (h : s.resolved = true) :
    (handler s ev).1.resolved = true := by
  cases ev with
  | openEv => exact h
  | message m =>
      cases m with
      | challenge nonce ts => exact h
      | res id ok err payload =>
          obtain ⟨p, hp⟩ := handleRes_state s id ok err payload
          show (handleRes s id ok err payload).1.resolved = true
          rw [hp]
          exact h
      | other => exact h
  | closeEv code => exact handleClose_resolved s code
  | errorEv emsg =>
      rcases handleError_state s emsg with h2 | h2 <;>
        · show (handleError s emsg).1.resolved = true
          rw [h2] <;> exact h
  | timerFire tid =>
      obtain ⟨p, hp⟩ := handleTimer_state s tid
      show (handleTimer s tid).1.resolved = true
      rw [hp]
      exact h

theorem handler_sync_settle_zero (s : Client) (ev : SockEvent) (h : s.resolved = true) :
    settleCount (handler s ev).2.1 = 0 := by
  cases ev with
  | openEv => rfl
  | message m =>
      cases m with
      | challenge nonce ts => exact handleChallenge_settle s
      | res id ok err payload => exact handleRes_settle s id ok err payload
      | other => rfl
  | closeEv code => rw [show (handler s (.closeEv code)).2.1 = (handleClose s code).2.1 from rfl,
      handleClose_settle, if_pos h]
  | errorEv emsg =>
      rw [show (handler s (.errorEv emsg)).2.1 = (handleError s emsg).2.1 from rfl,
        handleError_settle_resolved s emsg h]
      rfl
  | timerFire tid => exact handleTimer_settle s tid

theorem handler_sync_settle_le (s : Client) (ev : SockEvent) :
    settleCount (handler s ev).2.1 ≤ 1 := by
  cases ev with
  | openEv => simp [settleCount]
  | message m =>
      cases m with
      | challenge nonce ts =>
          rw [show (handler s (.message (.challenge nonce ts))).2.1 =
            (handleChallenge s).2.1 from rfl, handleChallenge_settle s]
          omega
      | res id ok err payload =>
          rw [show (handler s (.message (.res id ok err payload))).2.1 =
            (handleRes s id ok err payload).2.1 from rfl,
            handleRes_settle s id ok err payload]
          omega
      | other => simp [settleCount]
  | closeEv code =>
      rw [show (handler s (.closeEv code)).2.1 = (handleClose s code).2.1 from rfl,
        handleClose_settle]
      by_cases h : s.resolved = true <;> simp [h]
  | errorEv emsg =>
      by_cases h : s.resolved = true
      · rw [show (handler s (.errorEv emsg)).2.1 = (handleError s emsg).2.1 from rfl,
          handleError_settle_resolved s emsg h]
        simp [settleCount]
      · rw [show (handler s (.errorEv emsg)).2.1 = (handleError s emsg).2.1 from rfl,
          handleError_settle_unresolved s emsg (by simpa using h)]
        simp [settleCount, isSettle]
  | timerFire tid =>
      rw [show (handler s (.timerFire tid)).2.1 = (handleTimer s tid).2.1 from rfl,
        handleTimer_settle s tid]
      omega

theorem handler_unresolved_no_settle (s : Client) (ev : SockEvent)
    (h : (handler s ev).1.resolved = false) : settleCount (handler s ev).2.1 = 0 := by
  cases ev with
  | openEv => rfl
  | message m =>
      cases m with
      | challenge nonce ts => exact handleChallenge_settle s
      | res id ok err payload => exact handleRes_settle s id ok err payload
      | other => rfl
  | closeEv code =>
      rw [show (handler s (.closeEv code)).1 = (handleClose s code).1 from rfl,
        handleClose_resolved s code] at h
      simp at h
  | errorEv emsg =>
      exfalso
      by_cases hr : s.resolved = true
      · rw [show (handler s (.errorEv emsg)).1 = (handleError s emsg).1 from rfl,
          handleError_settle_resolved s emsg hr] at h
        simp [hr] at h
      · rw [show (handler s (.errorEv emsg)).1 = (handleError s emsg).1 from rfl,
          handleError_settle_unresolved s emsg (by simpa using hr)] at h
        simp at h
  | timerFire tid => exact handleTimer_settle s tid

theorem step_resolved_mono (s : Client) (ev : SockEvent) (h : s.resolved = true) :
    (step s ev).1.resolved = true := by
  rw [step_fst]
  exact drain_resolved_mono _ _ (handler_resolved_mono s ev h)

theorem step_settled (s : Client) (ev : SockEvent) (h : s.resolved = true) :
    settleCount (step s ev).2 = 0 := by
  rw [step_snd, settleCount_append, handler_sync_settle_zero s ev h,
    drain_settled _ _ (handler_resolved_mono s ev h)]
  rfl

theorem step_settle_le (s : Client) (ev : SockEvent) :
    settleCount (step s ev).2 ≤ 1 := by
  rw [step_snd, settleCount_append]
  by_cases h : (handler s ev).1.resolved = true
  · rw [drain_settled _ _ h]
    have := handler_sync_settle_le s ev
    simp [settleCount]
    omega
  · rw [handler_unresolved_no_settle s ev (by simpa using h)]
    have := (drain_settle_le (handler s ev).2.2 (handler s ev).1).1
    omega

theorem step_no_settle_of_unresolved (s : Client) (ev : SockEvent)
    (h : (step s ev).1.resolved = false) : settleCount (step s ev).2 = 0 := by
  rw [step_fst] at h
  by_cases hh : (handler s ev).1.resolved = true
  · exact absurd (drain_resolved_mono (handler s ev).2.2 (handler s ev).1 hh)
      (by simp [h])
  · have hd := (drain_settle_le (handler s ev).2.2 (handler s ev).1).2 h
    rw [step_snd, settleCount_append,
      handler_unresolved_no_settle s ev (by simpa using hh), hd]

theorem run_settled : ∀ (evs : List SockEvent) (s : Client), s.resolved = true →
    settleCount (run s evs).2 = 0 := by
  intro evs
  induction evs with
  | nil => intro s h; rfl
  | cons ev evs ih =>
      intro s h
      show settleCount ((step s ev).2 ++ (run (step s ev).1 evs).2) = 0
      rw [settleCount_append, step_settled s ev h, ih _ (step_resolved_mono s ev h)]

theorem run_settle_le : ∀ (evs : List SockEvent) (s : Client), s.resolved = false →
    settleCount (run s evs).2 ≤ 1 := by
  intro evs
  induction evs with
  | nil => intro s h; simp [run, settleCount]
  | cons ev evs ih =>
      intro s h
      show settleCount ((step s ev).2 ++ (run (step s ev).1 evs).2) ≤ 1
      rw [settleCount_append]
      by_cases hr : (step s ev).1.resolved = true
      · rw [run_settled evs _ hr]
        have := step_settle_le s ev
        omega
      · rw [step_no_settle_of_unresolved s ev (by simpa using hr)]
        have := ih _ (by simpa using hr)
        omega

/-! ## Flag invariants -/

theorem runTask_authImpRes (s : Client) (t : MTask)
    (_h : s.authenticated = true → s.resolved = true) :
    (runTask s t).1.authenticated = true → (runTask s t).1.resolved = true := by
  cases t <;> by_cases hr : s.resolved = true <;> simp [runTask, hr]

theorem drain_authImpRes : ∀ (ts : List MTask) (s : Client),
    (s.authenticated = true → s.resolved = true) →
    ((drain s ts).1.authenticated = true → (drain s ts).1.resolved = true) := by
  intro ts
  induction ts with
  | nil => intro s h; exact h
  | cons t ts ih =>
      intro s h
      exact ih (runTask s t).1 (runTask_authImpRes s t h)

theorem handler_authImpRes (s : Client) (ev : SockEvent)
    (h : s.authenticated = true → s.resolved = true) :
    (handler s ev).1.authenticated = true → (handler s ev).1.resolved = true := by
  cases ev with
  | openEv => exact h
  | message m =>
      cases m with
      | challenge nonce ts => exact h
      | res id ok err payload =>
          obtain ⟨p, hp⟩ := handleRes_state s id ok err payload
          show (handleRes s id ok err payload).1.authenticated = true →
            (handleRes s id ok err payload).1.resolved = true
          rw [hp]
          exact h
      | other => exact h
  | closeEv code => intro _; exact handleClose_resolved s code
  | errorEv emsg =>
      rcases handleError_state s emsg with h2 | h2 <;>
        · show (handleError s emsg).1.authenticated = true →
            (handleError s emsg).1.resolved = true
          rw [h2]
          first
            | exact h
            | exact fun _ => rfl
  | timerFire tid =>
      obtain ⟨p, hp⟩ := handleTimer_state s tid
      show (handleTimer s tid).1.authenticated = true →
        (handleTimer s tid).1.resolved = true
      rw [hp]
      exact h

theorem step_authImpRes (s : Client) (ev : SockEvent)
    (h : s.authenticated = true → s.resolved = true) :
    (step s ev).1.authenticated = true → (step s ev).1.resolved = true := by
  rw [step_fst]
  exact drain_authImpRes _ _ (handler_authImpRes s ev h)

theorem run_authImpRes : ∀ (evs : List SockEvent) (s : Client),
    (s.authenticated = true → s.resolved = true) →
    ((run s evs).1.authenticated = true → (run s evs).1.resolved = true) := by
  intro evs
  induction evs with
  | nil => intro s h; exact h
  | cons ev evs ih =>
      intro s h
      exact ih (step s ev).1 (step_authImpRes s ev h)

theorem runTask_authFailure_auth (s : Client) (e : String) :
    (runTask s (.authFailure e)).1.authenticated = s.authenticated := by
  by_cases hr : s.resolved = true <;> simp [runTask, hr]

theorem drain_failures_auth : ∀ (ts : List MTask) (s : Client),
    (∀ t ∈ ts, ∃ e, t = MTask.authFailure e) →
    (drain s ts).1.authenticated = s.authenticated := by
  intro ts
  induction ts with
  | nil => intro s _; rfl
  | cons t ts ih =>
      intro s h
      obtain ⟨e, rfl⟩ := h t (by simp)
      show (drain (runTask s (.authFailure e)).1 ts).1.authenticated = s.authenticated
      rw [ih _ (fun t ht => h t (by simp [ht])), runTask_authFailure_auth]

theorem rejectAllPending_tasks_failures (s : Client) (emsg : String) :
    ∀ t ∈ (rejectAllPending s emsg).2.2, ∃ e, t = MTask.authFailure e := by
  intro t ht
  show ∃ e, t = MTask.authFailure e
  simp only [rejectAllPending, List.mem_flatMap] at ht
  obtain ⟨p, _, hp⟩ := ht
  unfold entryRejectTasks at hp
  rcases hk : p.2.kind <;> rw [hk] at hp <;> simp at hp
  exact ⟨emsg, hp⟩

theorem handleClose_auth (s : Client) (code : Nat) :
    (handleClose s code).1.authenticated = false := by
  unfold handleClose
  split
  · unfold scheduleReconnect
    split <;> rfl
  · rfl

theorem handleClose_tasks (s : Client) (code : Nat) :
    (handleClose s code).2.2 =
      (rejectAllPending { s with connected := false, authenticated := false }
        "WebSocket disconnected").2.2 := by
  unfold handleClose
  split <;> rfl

theorem step_auth_close (s : Client) (code : Nat) :
    (step s (.closeEv code)).1.authenticated = false := by
  rw [step_fst]
  have ht : ∀ t ∈ (handler s (.closeEv code)).2.2, ∃ e, t = MTask.authFailure e := by
    intro t ht
    apply rejectAllPending_tasks_failures
    rw [← handleClose_tasks s code]
    exact ht
  rw [drain_failures_auth _ _ ht]
  exact handleClose_auth s code

theorem step_connected_of_message (s : Client) (m : Msg) :
    (step s (.message m)).1.connected = s.connected := by
  rw [step_fst, drain_connected]
  cases m with
  | challenge nonce ts => rfl
  | res id ok err payload =>
      obtain ⟨p, hp⟩ := handleRes_state s id ok err payload
      show (handleRes s id ok err payload).1.connected = s.connected
      rw [hp]
  | other => rfl

theorem step_authConn (s : Client) (ev : SockEvent)
    (hInv : s.authenticated = true → s.connected = true) (hwf : Wf s ev) :
    (step s ev).1.authenticated = true → (step s ev).1.connected = true := by
  cases ev with
  | openEv =>
      intro _
      show (drain { s with connected := true } []).1.connected = true
      rfl
  | message m =>
      intro _
      rw [step_connected_of_message]
      exact hwf
  | closeEv code =>
      intro ha
      rw [step_auth_close s code] at ha
      cases ha
  | errorEv emsg =>
      have h1 : (step s (.errorEv emsg)).1.authenticated = s.authenticated := by
        rw [step_fst]
        have : (handler s (.errorEv emsg)).2.2 = [] := by
          show (handleError s emsg).2.2 = []
          unfold handleError
          split <;> rfl
        rw [this]
        show (handler s (.errorEv emsg)).1.authenticated = s.authenticated
        rcases handleError_state s emsg with h2 | h2 <;>
          · show (handleError s emsg).1.authenticated = s.authenticated
            rw [h2]
      have h2 : (step s (.errorEv emsg)).1.connected = s.connected := by
        rw [step_fst, drain_connected]
        rcases handleError_state s emsg with h2 | h2 <;>
          · show (handleError s emsg).1.connected = s.connected
            rw [h2]
      rw [h1, h2]
      exact hInv
  | timerFire tid =>
      have hts : ∀ t ∈ (handler s (.timerFire tid)).2.2, ∃ e, t = MTask.authFailure e := by
        show ∀ t ∈ (handleTimer s tid).2.2, ∃ e, t = MTask.authFailure e
        unfold handleTimer
        split
        · simp
        · split <;> simp
      have h1 : (step s (.timerFire tid)).1.authenticated = s.authenticated := by
        rw [step_fst, drain_failures_auth _ _ hts]
        obtain ⟨p, hp⟩ := handleTimer_state s tid
        show (handleTimer s tid).1.authenticated = s.authenticated
        rw [hp]
      have h2 : (step s (.timerFire tid)).1.connected = s.connected := by
        rw [step_fst, drain_connected]
        obtain ⟨p, hp⟩ := handleTimer_state s tid
        show (handleTimer s tid).1.connected = s.connected
        rw [hp]
      rw [h1, h2]
      exact hInv

theorem run_authConn : ∀ (evs : List SockEvent) (s : Client),
    (s.authenticated = true → s.connected = true) → WfRun s evs →
    ((run s evs).1.authenticated = true → (run s evs).1.connected = true) := by
  intro evs
  induction evs with
  | nil => intro s h _; exact h
  | cons ev evs ih =>
      intro s h hwf
      exact ih (step s ev).1 (step_authConn s ev h hwf.1) hwf.2

/-! ## Close/error outputs and table-shape helpers -/

theorem runTask_outs_settle (s : Client) (t : MTask) :
    ∀ o ∈ (runTask s t).2, isSettle o = true := by
  cases t <;> by_cases hr : s.resolved = true <;> simp [runTask, hr, isSettle]

theorem drain_outs_settle : ∀ (ts : List MTask) (s : Client),
    ∀ o ∈ (drain s ts).2, isSettle o = true := by
  intro ts
  induction ts with
  | nil => intro s o ho; cases ho
  | cons t ts ih =>
      intro s o ho
      rcases List.mem_append.mp ho with ho | ho
      · exact runTask_outs_settle s t o ho
      · exact ih (runTask s t).1 o ho

theorem sched_not_in_drain (ts : List MTask) (s : Client) :
    Output.reconnectScheduled ∉ (drain s ts).2 := by
  intro h
  have := drain_outs_settle ts s _ h
  simp [isSettle] at this

theorem handleClose_pending (s : Client) (code : Nat) :
    (handleClose s code).1.pending = [] := by
  unfold handleClose
  split
  · unfold scheduleReconnect
    split <;> rfl
  · rfl

theorem handleClose_nextId (s : Client) (code : Nat) :
    (handleClose s code).1.nextId = s.nextId := by
  unfold handleClose
  split
  · unfold scheduleReconnect
    split <;> rfl
  · rfl

theorem handleClose_outs_eq (s : Client) (code : Nat) :
    (handleClose s code).2.1 =
      (s.pending.flatMap fun p =>
        [Output.cleared p.2.timerId, Output.rejectedP p.1 "WebSocket disconnected"]) ++
      (if s.resolved then
        (if s.reconnectTimer then [] else [Output.reconnectScheduled])
       else [Output.connectRejected ("WS closed: " ++ Nat.repr code)]) := by
  unfold handleClose
  by_cases h : s.resolved = true
  · rw [if_pos h, if_pos h]
    unfold scheduleReconnect
    by_cases h2 : s.reconnectTimer = true
    · rw [if_pos (show ((rejectAllPending
          { s with connected := false, authenticated := false }
          "WebSocket disconnected").1.reconnectTimer = true) from h2), if_pos h2]
      rfl
    · rw [if_neg (show ¬((rejectAllPending
          { s with connected := false, authenticated := false }
          "WebSocket disconnected").1.reconnectTimer = true) from h2), if_neg h2]
      rfl
  · rw [if_neg h, if_neg h]
    rfl

theorem handleRes_pending_cases (s : Client) (id : String) (ok : Option Bool)
    (err : Option String) (payload : String) :
    (handleRes s id ok err payload).1.pending = s.pending ∨
      (handleRes s id ok err payload).1.pending = mapDelete s.pending id := by
  unfold handleRes
  split
  · exact .inl rfl
  · split
    · exact .inr rfl
    · split <;> exact .inr rfl

theorem handleRes_pending_some (s : Client) (id : String) (ok : Option Bool)
    (err : Option String) (payload : String) (e : PendingEntry)
    (h : mapGet s.pending id = some e) :
    (handleRes s id ok err payload).1.pending = mapDelete s.pending id := by
  unfold handleRes
  split
  · rename_i heq
    rw [heq] at h
    cases h
  · split
    · rfl
    · split <;> rfl

theorem handleTimer_pending_cases (s : Client) (tid : Nat) :
    (handleTimer s tid).1.pending = s.pending ∨
      ∃ id, (handleTimer s tid).1.pending = mapDelete s.pending id := by
  unfold handleTimer
  split
  · exact .inl rfl
  · split <;> exact .inr ⟨_, rfl⟩

theorem step_nextId_mono (s : Client) (ev : SockEvent) :
    s.nextId ≤ (step s ev).1.nextId := by
  rw [step_fst, drain_nextId]
  cases ev with
  | openEv => exact Nat.le_refl _
  | message m =>
      cases m with
      | challenge nonce ts =>
          show s.nextId ≤ (handleChallenge s).1.nextId
          rw [handleChallenge_state]
          exact Nat.le_succ _
      | res id ok err payload =>
          obtain ⟨p, hp⟩ := handleRes_state s id ok err payload
          show s.nextId ≤ (handleRes s id ok err payload).1.nextId
          rw [hp]
      | other => exact Nat.le_refl _
  | closeEv code =>
      show s.nextId ≤ (handleClose s code).1.nextId
      rw [handleClose_nextId]
  | errorEv emsg =>
      rcases handleError_state s emsg with h2 | h2 <;>
        · show s.nextId ≤ (handleError s emsg).1.nextId
          rw [h2]
  | timerFire tid =>
      obtain ⟨p, hp⟩ := handleTimer_state s tid
      show s.nextId ≤ (handleTimer s tid).1.nextId
      rw [hp]

theorem step_nodup (s : Client) (ev : SockEvent)
    (h : (s.pending.map Prod.fst).Nodup) :
    ((step s ev).1.pending.map Prod.fst).Nodup := by
  rw [step_fst, drain_pending]
  cases ev with
  | openEv => exact h
  | message m =>
      cases m with
      | challenge nonce ts =>
          show (((handleChallenge s).1.pending).map Prod.fst).Nodup
          rw [handleChallenge_state]
          exact nodup_mapSet _ _ _ h
      | res id ok err payload =>
          show (((handleRes s id ok err payload).1.pending).map Prod.fst).Nodup
          rcases handleRes_pending_cases s id ok err payload with h2 | h2 <;> rw [h2]
          · exact h
          · exact nodup_mapDelete _ _ h
      | other => exact h
  | closeEv code =>
      show (((handleClose s code).1.pending).map Prod.fst).Nodup
      rw [handleClose_pending]
      simp
  | errorEv emsg =>
      rcases handleError_state s emsg with h2 | h2 <;>
        · show (((handleError s emsg).1.pending).map Prod.fst).Nodup
          rw [h2]
          exact h
  | timerFire tid =>
      show (((handleTimer s tid).1.pending).map Prod.fst).Nodup
      rcases handleTimer_pending_cases s tid with h2 | ⟨id, h2⟩ <;> rw [h2]
      · exact h
      · exact nodup_mapDelete _ _ h

theorem call_ok_elim (s : Client) (m : String) (s' : Client) (outs : List Output)
    (h : call s m = .ok (s', outs)) :
    s' = { s with
           nextId := s.nextId + 1
           nextTimer := s.nextTimer + 1
           pending := mapSet s.pending (genIdStr s.nextId)
             ⟨.userCall, m, s.nextTimer⟩ } := by
  unfold call at h
  split at h
  · cases h
  · injection h with h2
    exact (congrArg Prod.fst h2).symm

theorem call_gate_auth_false (s : Client) (m : String) (h : s.authenticated = false) :
    call s m = .error "Not connected to Gateway" := by
  unfold call
  rw [if_pos (show (!s.hasWs || !s.connected || !s.authenticated) = true by simp [h])]

theorem res_unknown_discarded (s : Client) (id : String) (ok : Option Bool)
    (err : Option String) (payload : String) (h : mapGet s.pending id = none) :
    step s (.message (.res id ok err payload)) = (s, []) := by
  have hh : handler s (.message (.res id ok err payload)) = (s, [], []) := by
    show handleRes s id ok err payload = (s, [], [])
    unfold handleRes
    rw [h]
  calc step s (.message (.res id ok err payload))
      = ((drain (handler s (.message (.res id ok err payload))).1
            (handler s (.message (.res id ok err payload))).2.2).1,
         (handler s (.message (.res id ok err payload))).2.1 ++
           (drain (handler s (.message (.res id ok err payload))).1
             (handler s (.message (.res id ok err payload))).2.2).2) := rfl
    _ = (s, []) := by rw [hh]; rfl

theorem deviceBlock_contract_witness :
    (mkDeviceBlock (fun _ => [171]) (fun _ => [251, 255]) [77] "tok" "abc" 7).nonce =
      "abc" ∧
    '=' ∉ (mkDeviceBlock (fun _ => [171]) (fun _ => [251, 255]) [77] "tok" "abc"
      7).publicKey.data := by
  constructor
  · exact (deviceBlock_contract (fun _ => [171]) (fun _ => [251, 255]) [77] "tok"
      "abc" 7).2.2.2.2.2.2.1
  · intro hmem
    exact (deviceBlock_contract (fun _ => [171]) (fun _ => [251, 255]) [77] "tok"
      "abc" 7).2.2.2.1 '=' hmem rfl

/-! ## Claim theorems -/

/-- C2: `call(method, params)` invoked while `connected` and `authenticated`
are not both true fails immediately with the `NotConnected` condition
(`"Not connected to Gateway"`) and, since `call` returns the error instead of
a state/output pair, sends no envelope; in particular this holds after
`disconnect()` and, for any event trace of a `connect()` attempt, before the
attempt's promise has resolved. -/
theorem call_requires_ready (s₀ s : Client) (m : String) (evs : List SockEvent) :
    ((s.connected && s.authenticated) = false →
        call s m = .error "Not connected to Gateway") ∧
    call (disconnect s).1 m = .error "Not connected to Gateway" ∧
    ((run (connectStart s₀) evs).1.resolved = false →
        call (run (connectStart s₀) evs).1 m = .error "Not connected to Gateway") := by
  refine ⟨fun h => ?_, ?_, fun h => ?_⟩
  · cases hc : s.connected <;> cases ha : s.authenticated <;> simp_all [call]
  · show call (rejectAllPending _ _).1 m = _
    rw [rejectAllPending_fst]
    rfl
  · apply call_gate_auth_false
    cases hb : (run (connectStart s₀) evs).1.authenticated
    · rfl
    · have hres := run_authImpRes evs (connectStart s₀)
        (fun ha => by simp [connectStart] at ha) hb
      rw [h] at hres
      cases hres

theorem call_requires_ready_witness :
    call (initClient 7) "health" = .error "Not connected to Gateway" :=
  (call_requires_ready (initClient 7) (initClient 7) "health" []).1 rfl

/-- C3: at the moment the socket closes, every outstanding Pending Request is
rejected with the `Disconnected` condition (`"WebSocket disconnected"`), every
entry's deadline timer is cleared, and the Correlation Table is empty
afterwards. -/
theorem close_rejects_all_pending (s : Client) (code : Nat) :
    (step s (.closeEv code)).1.pending = [] ∧
    ∀ p ∈ s.pending,
      Output.cleared p.2.timerId ∈ (step s (.closeEv code)).2 ∧
      Output.rejectedP p.1 "WebSocket disconnected" ∈ (step s (.closeEv code)).2 := by
  constructor
  · rw [step_fst, drain_pending]
    exact handleClose_pending s code
  · intro p hp
    have key : ∀ o, o ∈ (handleClose s code).2.1 → o ∈ (step s (.closeEv code)).2 := by
      intro o ho
      rw [step_snd]
      exact List.mem_append_left _ ho
    constructor
    · apply key
      rw [handleClose_outs_eq]
      exact List.mem_append_left _ (List.mem_flatMap.mpr ⟨p, hp, by simp⟩)
    · apply key
      rw [handleClose_outs_eq]
      exact List.mem_append_left _ (List.mem_flatMap.mpr ⟨p, hp, by simp⟩)

theorem close_rejects_all_pending_witness :
    (step c3s (.closeEv 1001)).1.pending = [] ∧
    Output.rejectedP "bridge-1" "WebSocket disconnected" ∈ (step c3s (.closeEv 1001)).2 ∧
    Output.cleared 1 ∈ (step c3s (.closeEv 1001)).2 := by
  refine ⟨(close_rejects_all_pending c3s 1001).1, ?_, ?_⟩
  · exact ((close_rejects_all_pending c3s 1001).2 ("bridge-1", ⟨.userCall, "node.list", 0⟩)
      (by simp [c3s])).2
  · exact ((close_rejects_all_pending c3s 1001).2 ("bridge-2", ⟨.userCall, "health", 1⟩)
      (by simp [c3s])).1

/-- C4 counterexample: during an initial `connect()` attempt (never
authenticated — no `connectResolved` is ever emitted and `authenticated` ends
false), a socket error followed by the socket close surfaces the failure to
the `connect()` caller AND schedules an automatic reconnection attempt,
contradicting the claim that no reconnection is scheduled when the socket
closes or errors before the first successful authentication. -/
theorem preauth_error_close_schedules_reconnect :
    Output.connectRejected "connect ECONNREFUSED" ∈
      (run (connectStart (initClient 60000))
        [.errorEv "connect ECONNREFUSED", .closeEv 1006]).2 ∧
    Output.reconnectScheduled ∈
      (run (connectStart (initClient 60000))
        [.errorEv "connect ECONNREFUSED", .closeEv 1006]).2 ∧
    (run (connectStart (initClient 60000))
        [.errorEv "connect ECONNREFUSED", .closeEv 1006]).1.authenticated = false ∧
    Output.connectResolved ∉
      (run (connectStart (initClient 60000))
        [.errorEv "connect ECONNREFUSED", .closeEv 1006]).2 := by
  decide

/-- C4 amended: the close handler schedules the single reconnection attempt
exactly when the attempt's promise had already settled (`resolved`, whether by
successful authentication, handshake failure, or a preceding error event) and
no reconnect timer is pending; a close that is itself the first settling event
rejects the `connect()` promise with `"WS closed: <code>"` instead; an error
event never schedules a reconnect by itself and, if first, settles the
promise with the error. -/
theorem close_reconnect_policy (s : Client) (code : Nat) (emsg : String) :
    (Output.reconnectScheduled ∈ (step s (.closeEv code)).2 ↔
        s.resolved = true ∧ s.reconnectTimer = false) ∧
    (s.resolved = false →
        Output.connectRejected ("WS closed: " ++ Nat.repr code) ∈
          (step s (.closeEv code)).2) ∧
    Output.reconnectScheduled ∉ (step s (.errorEv emsg)).2 ∧
    (s.resolved = false → (step s (.errorEv emsg)).2 = [Output.connectRejected emsg]) := by
  have htasks : (handler s (.errorEv emsg)).2.2 = [] := by
    show (handleError s emsg).2.2 = []
    unfold handleError
    split <;> rfl
  have herr : (step s (.errorEv emsg)).2 = (handleError s emsg).2.1 := by
    rw [step_snd, htasks]
    rw [show (drain (handler s (.errorEv emsg)).1 ([] : List MTask)).2 = [] from rfl,
      List.append_nil]
    rfl
  refine ⟨⟨fun hmem => ?_, fun hres => ?_⟩, fun h => ?_, ?_, fun h => ?_⟩
  · rw [step_snd] at hmem
    rcases List.mem_append.mp hmem with hm | hm
    · rw [show (handler s (.closeEv code)).2.1 = (handleClose s code).2.1 from rfl,
        handleClose_outs_eq] at hm
      rcases List.mem_append.mp hm with hm | hm
      · exact absurd hm (by simp [List.mem_flatMap])
      · by_cases h : s.resolved = true
        · rw [if_pos h] at hm
          by_cases h2 : s.reconnectTimer = true
          · rw [if_pos h2] at hm
            cases hm
          · exact ⟨h, by simpa using h2⟩
        · rw [if_neg h] at hm
          simp at hm
    · exact absurd hm (sched_not_in_drain _ _)
  · rw [step_snd]
    apply List.mem_append_left
    rw [show (handler s (.closeEv code)).2.1 = (handleClose s code).2.1 from rfl,
      handleClose_outs_eq, if_pos hres.1,
      if_neg (show ¬(s.reconnectTimer = true) by simp [hres.2])]
    apply List.mem_append_right
    simp
  · rw [step_snd]
    apply List.mem_append_left
    rw [show (handler s (.closeEv code)).2.1 = (handleClose s code).2.1 from rfl,
      handleClose_outs_eq, if_neg (by simp [h])]
    apply List.mem_append_right
    simp
  · rw [herr]
    by_cases hr : s.resolved = true
    · rw [handleError_settle_resolved s emsg hr]
      simp
    · rw [handleError_settle_unresolved s emsg (by simpa using hr)]
      simp
  · rw [herr, handleError_settle_unresolved s emsg h]

theorem close_reconnect_policy_witness :
    Output.connectRejected ("WS closed: " ++ Nat.repr 1006) ∈
      (step (connectStart (initClient 2)) (.closeEv 1006)).2 :=
  (close_reconnect_policy (connectStart (initClient 2)) 1006 "e").2.1 rfl

/-- C6: a `res` whose id is absent from the Correlation Table is discarded
silently (identical state, no outputs); a `res` matching an entry removes the
entry, so a second delivery of the same `res` — and likewise any late `res`
after the entry was already removed — is a no-op. -/
theorem res_resolves_at_most_once (s : Client) (id : String) (ok : Option Bool)
    (err : Option String) (payload : String) :
    (mapGet s.pending id = none →
        step s (.message (.res id ok err payload)) = (s, [])) ∧
    ∀ e, mapGet s.pending id = some e →
      (step s (.message (.res id ok err payload))).1.pending = mapDelete s.pending id ∧
      mapGet (step s (.message (.res id ok err payload))).1.pending id = none ∧
      step (step s (.message (.res id ok err payload))).1 (.message (.res id ok err payload)) =
        ((step s (.message (.res id ok err payload))).1, []) := by
  constructor
  · exact res_unknown_discarded s id ok err payload
  · intro e he
    have hpend : (step s (.message (.res id ok err payload))).1.pending =
        mapDelete s.pending id := by
      rw [step_fst, drain_pending]
      exact handleRes_pending_some s id ok err payload e he
    refine ⟨hpend, ?_, ?_⟩
    · rw [hpend]
      exact mapGet_mapDelete_self s.pending id
    · apply res_unknown_discarded
      rw [hpend]
      exact mapGet_mapDelete_self s.pending id

theorem res_resolves_at_most_once_witness :
    mapGet (step c6s (.message (.res "k" none none "p"))).1.pending "k" = none ∧
    step (step c6s (.message (.res "k" none none "p"))).1 (.message (.res "k" none none "p")) =
      ((step c6s (.message (.res "k" none none "p"))).1, []) := by
  have h := (res_resolves_at_most_once c6s "k" none none "p").2
    ⟨.userCall, "node.list", 3⟩ rfl
  exact ⟨h.2.1, h.2.2⟩

/-- C7: `authenticated` implies `connected` is preserved by every well-formed
event step and holds in every state reachable by a well-formed trace from a
fresh client; `authenticated` is reset to `false` by the close handler, by
the start of a new `connect()` attempt, and by `disconnect()`. -/
theorem authenticated_implies_connected (s : Client) (ev : SockEvent) (code : Nat)
    (evs : List SockEvent) (rt : Nat) :
    ((s.authenticated = true → s.connected = true) → Wf s ev →
        ((step s ev).1.authenticated = true → (step s ev).1.connected = true)) ∧
    (step s (.closeEv code)).1.authenticated = false ∧
    (connectStart s).authenticated = false ∧
    (disconnect s).1.authenticated = false ∧
    (WfRun (initClient rt) evs →
        ((run (initClient rt) evs).1.authenticated = true →
          (run (initClient rt) evs).1.connected = true)) := by
  refine ⟨step_authConn s ev, step_auth_close s code, rfl, ?_, ?_⟩
  · show (rejectAllPending _ _).1.authenticated = false
    rw [rejectAllPending_fst]
  · intro hwf
    exact run_authConn evs (initClient rt) (fun ha => by simp [initClient] at ha) hwf

theorem authenticated_implies_connected_witness :
    (run (initClient 5) c7trace).1.authenticated = true ∧
    (run (initClient 5) c7trace).1.connected = true := by
  refine ⟨rfl, ?_⟩
  exact (authenticated_implies_connected (initClient 5) .openEv 1000 c7trace 5).2.2.2.2
    ⟨trivial, rfl, rfl, trivial⟩ rfl

/-- C8: correlation ids are strictly monotonic and never reused: `genId` is
injective, `call` and the handshake each allocate the id of the current
counter value and bump the counter by one, no event step ever decreases the
counter, neither a new attempt nor `disconnect` resets it, and distinctness
of the keys in the Correlation Table is preserved, so each response resolves
at most one Pending Request. -/
theorem correlation_ids_monotonic (s : Client) (ev : SockEvent) (m nonce : String)
    (ts a b : Nat) :
    (genIdStr a = genIdStr b → a = b) ∧
    (∀ s' outs, call s m = .ok (s', outs) →
        s'.nextId = s.nextId + 1 ∧
        mapGet s'.pending (genIdStr s.nextId) = some ⟨.userCall, m, s.nextTimer⟩ ∧
        ((s.pending.map Prod.fst).Nodup → (s'.pending.map Prod.fst).Nodup)) ∧
    ((step s (.message (.challenge nonce ts))).1.nextId = s.nextId + 1 ∧
      mapGet (step s (.message (.challenge nonce ts))).1.pending (genIdStr s.nextId) =
        some ⟨.handshake, "connect", s.nextTimer⟩) ∧
    s.nextId ≤ (step s ev).1.nextId ∧
    (connectStart s).nextId = s.nextId ∧
    (disconnect s).1.nextId = s.nextId ∧
    ((s.pending.map Prod.fst).Nodup → ((step s ev).1.pending.map Prod.fst).Nodup) := by
  refine ⟨fun h => genIdStr_inj h, ?_, ⟨?_, ?_⟩, step_nextId_mono s ev, rfl, ?_,
    step_nodup s ev⟩
  · intro s' outs h
    have hs := call_ok_elim s m s' outs h
    subst hs
    exact ⟨rfl, mapGet_mapSet_self _ _ _, fun hn => nodup_mapSet _ _ _ hn⟩
  · rw [step_fst, drain_nextId]
    show (handleChallenge s).1.nextId = s.nextId + 1
    rw [handleChallenge_state]
  · rw [step_fst, drain_pending]
    show mapGet (handleChallenge s).1.pending (genIdStr s.nextId) =
      some ⟨.handshake, "connect", s.nextTimer⟩
    rw [handleChallenge_state]
    exact mapGet_mapSet_self _ _ _
  · show (rejectAllPending _ _).1.nextId = s.nextId
    rw [rejectAllPending_fst]

theorem correlation_ids_monotonic_witness :
    ({ c8s with
       nextId := c8s.nextId + 1
       nextTimer := c8s.nextTimer + 1
       pending := mapSet c8s.pending (genIdStr c8s.nextId)
         ⟨.userCall, "ping", c8s.nextTimer⟩ } : Client).nextId = c8s.nextId + 1 ∧
    (2 : Nat) = 2 :=
  ⟨((correlation_ids_monotonic c8s .openEv "ping" "n" 1 2 2).2.1 _ _ rfl).1,
   (correlation_ids_monotonic c8s .openEv "ping" "n" 1 2 2).1 rfl⟩

/-- C9 counterexample: registering an id already present in the Correlation
Table is not an error — `pendingRequests.set` silently replaces the existing
entry, as shown at the concrete id `"bridge-1"`. -/
theorem register_duplicate_counterexample :
    mapGet [("bridge-1", (⟨.userCall, "a", 0⟩ : PendingEntry))] "bridge-1" =
      some ⟨.userCall, "a", 0⟩ ∧
    mapSet [("bridge-1", ⟨.userCall, "a", 0⟩)] "bridge-1" ⟨.userCall, "b", 1⟩ =
      [("bridge-1", ⟨.userCall, "b", 1⟩)] ∧
    mapGet (mapSet [("bridge-1", ⟨.userCall, "a", 0⟩)] "bridge-1" ⟨.userCall, "b", 1⟩)
      "bridge-1" = some ⟨.userCall, "b", 1⟩ ∧
    (⟨.userCall, "b", 1⟩ : PendingEntry) ≠ ⟨.userCall, "a", 0⟩ := by
  refine ⟨rfl, rfl, rfl, ?_⟩
  decide

/-- C9 amended: registering under an id already present silently replaces the
existing entry (JavaScript `Map.set` semantics) and leaves the table size
unchanged; no error is raised. In practice a duplicate cannot occur because
ids come from the strictly monotonic counter. -/
theorem register_silently_replaces (tbl : List (String × PendingEntry)) (id : String)
    (e : PendingEntry) :
    mapGet (mapSet tbl id e) id = some e ∧
    (mapSet tbl id e).length =
      (if (mapGet tbl id).isSome then tbl.length else tbl.length + 1) :=
  ⟨mapGet_mapSet_self tbl id e, mapSet_len tbl id e⟩

/-- C10: the `connect()` promise of one attempt is settled at most once: over
any sequence of socket/timer events after the attempt starts, at most one
`connectResolved`/`connectRejected` output is ever emitted. -/
theorem connect_settles_at_most_once (s : Client) (evs : List SockEvent) :
    settleCount (run (connectStart s) evs).2 ≤ 1 :=
  run_settle_le evs (connectStart s) rfl

end Bridge
